import Mathlib

/-!
Verification development for the meteor-xray alignment visualizer.

The repository's two source files, `visualize.py` (imported as
`visualization` by `xray.py`) and `xray.py`, are shallowly embedded below.
Python floats are modelled as rationals, Python lists as Lean lists, and
fallible indexing (`lst[i]`, `dict[k]`) as `Option`-valued lookups, so that
an out-of-range access surfaces as `none` the way Python raises.  Helper
symbols imported from the repository's `alignment` module (which is not
among the given sources) are modelled from the specification and marked as
such.
-/

namespace MeteorXray

/-- Match-kind tags stored in an alignment matrix: the keys of the
`FILL` dictionaries in `visualize.py` (`'ex'`, `'ap'`, `'rm'`). -/
inductive MatchKind where
  | ex : MatchKind
  | ap : MatchKind
  | rm : MatchKind
deriving DecidableEq, Repr

/-- Modelled from the spec: the `AlignmentRecord` entity produced by the
repository's `alignment` module (not under `src/`): one scored alignment
between a hypothesis sentence `sen1` and a reference sentence `sen2`.
`matrix` maps (hypothesis index, reference index) to an optional match kind
(`none` = falsy "no match"); an out-of-range index is a lookup failure.
`sen1_matched` gives, per hypothesis index, the matched reference index or
`none` for the `NO_MATCH` sentinel. -/
structure AlignmentRecord where
  name : String
  sen1 : List String
  sen2 : List String
  matrix : List (List (Option MatchKind))
  sen1_matched : List (Option Nat)
  p : ℚ
  r : ℚ
  frag : ℚ
  score : ℚ
  sen_len : Nat
deriving DecidableEq, Repr

/-- `MAX_LEN = 50` from `visualize.py`. -/
def MAX_LEN : Nat := 50

/-- `check_printable(a1, a2=None)` from `visualize.py`: skip when the
reference is longer than `MAX_LEN`, or when a second record is supplied
whose reference differs from the first's. -/
def check_printable (a1 : AlignmentRecord) (a2 : Option AlignmentRecord) : Bool :=
  -- Too long
  if a1.sen2.length > MAX_LEN then false
  -- Different references?
  else
    match a2 with
    | some a2 => if a1.sen2 ≠ a2.sen2 then false else true
    | none => true

/-- A record with all-default metric fields, a given name, reference
sentence and hypothesis sentence; used to build concrete test inputs. -/
def mkRecord (name : String) (sen1 sen2 : List String) : AlignmentRecord :=
  { name := name
    sen1 := sen1
    sen2 := sen2
    matrix := sen1.map (fun _ => sen2.map (fun _ => (none : Option MatchKind)))
    sen1_matched := sen1.map (fun _ => (none : Option Nat))
    p := 0
    r := 0
    frag := 0
    score := 0
    sen_len := sen2.length }

/-- A list of `n` copies of the token `"w"`, for length-driven tests. -/
def toks (n : Nat) : List String := List.replicate n "w"

/-! ### Color gradient (`print_align_table`, lines 176-191 of `visualize.py`)

The loop keeps running channels `r`, `g`, `b`, starting at
`(0.6, 0.6, 1.0)`, with `step = 0.4 / max(1, len(a1.sen2))` and
`half = len(a1.sen2) / 2` (true division); each position `i` first updates
the channels (red-biased when `i >= half`, green-biased otherwise) and then
emits the triple clamped from above by `min(1.0, _)`. -/

/-- The per-position channel update of the color loop: red-biased
(`r += step*1.5; g += step*.25; b -= step*1.5`) when `redBias`, else
green-biased (`r += step*.5; g += step*1.0; b -= step*.5`). -/
def gradUpdate (step : ℚ) (redBias : Bool) (c : ℚ × ℚ × ℚ) : ℚ × ℚ × ℚ :=
  if redBias then
    (c.1 + step * (3/2), c.2.1 + step * (1/4), c.2.2 - step * (3/2))
  else
    (c.1 + step * (1/2), c.2.1 + step * 1, c.2.2 - step * (1/2))

/-- The clamp applied when a triple is emitted:
`(min(1.0, r), min(1.0, g), min(1.0, b))`. -/
def clampTriple (c : ℚ × ℚ × ℚ) : ℚ × ℚ × ℚ :=
  (min 1 c.1, min 1 c.2.1, min 1 c.2.2)

/-- `step = 0.4 / max(1, N)` of the color loop, with `N` the reference
length. -/
def stepOf (N : ℕ) : ℚ := 2/5 / ((max 1 N : ℕ) : ℚ)

/-- The color loop over the remaining position indices, carrying the
running channel state. -/
def gradAux (step half : ℚ) : List ℕ → ℚ × ℚ × ℚ → List (ℚ × ℚ × ℚ)
  | [], _ => []
  | i :: rest, c =>
    clampTriple (gradUpdate step (decide (half ≤ (i : ℚ))) c)
      :: gradAux step half rest (gradUpdate step (decide (half ≤ (i : ℚ))) c)

/-- The emitted `\definecolor` triples for reference length `N`: the color
loop run over positions `0 .. N-1` from the base color `(0.6, 0.6, 1.0)`. -/
def gradientColors (N : ℕ) : List (ℚ × ℚ × ℚ) :=
  gradAux (stepOf N) ((N : ℚ) / 2) (List.range N) (3/5, 3/5, 1)

/-- The running channel state of the color loop after `i` positions have
been processed (before clamping). -/
def gradState (N : ℕ) : ℕ → ℚ × ℚ × ℚ
  | 0 => (3/5, 3/5, 1)
  | i + 1 => gradUpdate (stepOf N) (decide ((N : ℚ) / 2 ≤ (i : ℚ))) (gradState N i)

/-- Total decrement weight of the blue channel over a list of positions:
`3/2` for a red-biased position, `1/2` for a green-biased one. -/
def gradWeight (half : ℚ) (l : List ℕ) : ℚ :=
  (l.map (fun i => if half ≤ (i : ℚ) then (3/2 : ℚ) else 1/2)).sum

/-! ### Table rendering (`print_align_table`, `visualize.py` lines 171-280)

The function prints LaTeX lines to a stream.  It is embedded as a pure
function producing the structured content of those lines; Python indexing
`a.matrix[i][j]` and `a.sen1_matched[i]`, which raises on an out-of-range
index, is embedded as an `Option`-valued lookup, and the whole renderer
returns `none` when any lookup raises. -/

/-- `escape(s)` from `visualize.py`, per character: `\` becomes
`\backslash`, each of `$ & % { } # _` gets a backslash prefix. -/
def escapeChar (c : Char) : List Char :=
  if c = '\\' then '\\' :: "backslash".data
  else if c = '$' ∨ c = '&' ∨ c = '%' ∨ c = Char.ofNat 123 ∨ c = Char.ofNat 125
      ∨ c = '#' ∨ c = '_' then ['\\', c]
  else [c]

/-- `escape(s)` from `visualize.py` applied to a whole token. -/
def escape (s : String) : String :=
  String.mk (s.data.foldr (fun c acc => escapeChar c ++ acc) [])

/-- The `FILL` dictionary of `visualize.py`: match marks for single mode. -/
def FILL : MatchKind → Option String
  | MatchKind.ex => some "\\mex"
  | MatchKind.ap => some "\\map"
  | MatchKind.rm => some "\\mrm"

/-- The `FILL_L` dictionary of `visualize.py`: left-hand (system 1) match
marks in compare mode; it has no entry for `'rm'`. -/
def FILL_L : MatchKind → Option String
  | MatchKind.ex => some "\\lex"
  | MatchKind.ap => some "\\lap"
  | MatchKind.rm => none

/-- The `FILL_R` dictionary of `visualize.py`: right-hand (system 2) match
marks in compare mode; it has no entry for `'rm'`. -/
def FILL_R : MatchKind → Option String
  | MatchKind.ex => some "\\rex"
  | MatchKind.ap => some "\\rap"
  | MatchKind.rm => none

/-- Python `a.matrix[i][j]`: `none` models the raised `IndexError` when
either index is out of range. -/
def matrixLookup (m : List (List (Option MatchKind))) (i j : ℕ) :
    Option (Option MatchKind) :=
  (m[i]?).bind (fun row => row[j]?)

/-- The label cell of a body row for one system: the matched reference
color index (`none` when `sen1_matched[i]` is `NO_MATCH`) and the escaped
hypothesis token. -/
structure LabelCell where
  colorIdx : Option Nat
  token : String
deriving DecidableEq, Repr

/-- One data cell of a body row: the match mark contributed by system 1
(via `fill1`) and, in compare mode, by system 2 (via `FILL_R`); `none`
means nothing was appended for that system. -/
structure RowCell where
  fill1 : Option String
  fill2 : Option String
deriving DecidableEq, Repr

/-- One body row of the table: the system-1 label cell (`none` when the
row index is past `len(a1.sen1)`), one data cell per reference position,
and — in compare mode only (outer `some`) — the system-2 label cell
(inner `none` past `len(a2.sen1)`). -/
structure Row where
  left : Option LabelCell
  cells : List RowCell
  right : Option (Option LabelCell)
deriving DecidableEq, Repr

/-- Builds the label-cell content for record `a` at row `i`
(`visualize.py` lines 222-226 and 239-243): fails when
`a.sen1_matched[i]` is out of range. -/
def labelCellOf (a : AlignmentRecord) (i : ℕ) : Option LabelCell :=
  (a.sen1_matched[i]?).map (fun m => ⟨m, escape (a.sen1.getD i "")⟩)

/-- The mark one system contributes to data cell `(i, j)` (`visualize.py`
lines 229-236): nothing when `i` is past that system's sentence; otherwise
`a.matrix[i][j]` is read (failing when out of range) and a truthy match
kind is sent through the fill dictionary (failing when the kind is not a
key, e.g. `'rm'` in compare mode). -/
def cellSys (fill : MatchKind → Option String) (a : AlignmentRecord) (i j : ℕ) :
    Option (Option String) :=
  if i < a.sen1.length then
    match matrixLookup a.matrix i j with
    | none => none
    | some none => some none
    | some (some k) =>
      match fill k with
      | none => none
      | some s => some (some s)
  else some none

/-- One data cell of row `i` at reference position `j`. -/
def cellOf (fill1 : MatchKind → Option String) (a1 : AlignmentRecord)
    (a2 : Option AlignmentRecord) (i j : ℕ) : Option RowCell :=
  match cellSys fill1 a1 i j with
  | none => none
  | some f1 =>
    match a2 with
    | none => some ⟨f1, none⟩
    | some a2 =>
      match cellSys FILL_R a2 i j with
      | none => none
      | some f2 => some ⟨f1, f2⟩

/-- Maps a fallible function over a list, failing when any element fails —
the Python loop that dies on the first raised exception. -/
def mapMOpt {α β : Type} (f : α → Option β) : List α → Option (List β)
  | [] => some []
  | a :: l =>
    match f a, mapMOpt f l with
    | some b, some bs => some (b :: bs)
    | _, _ => none

/-- The system-1 label part of row `i` (`visualize.py` lines 222-226):
present only when `i < len(a1.sen1)`. -/
def leftCellOf (a1 : AlignmentRecord) (i : ℕ) : Option (Option LabelCell) :=
  if i < a1.sen1.length then
    match labelCellOf a1 i with
    | none => none
    | some lc => some (some lc)
  else some none

/-- The system-2 label part of row `i` (`visualize.py` lines 237-243):
the column exists exactly when `a2` is given; its content only when
`i < len(a2.sen1)`. -/
def rightCellOf (a2 : Option AlignmentRecord) (i : ℕ) :
    Option (Option (Option LabelCell)) :=
  match a2 with
  | none => some none
  | some a2 =>
    if i < a2.sen1.length then
      match labelCellOf a2 i with
      | none => none
      | some lc => some (some (some lc))
    else some (some none)

/-- Body row `i` of the alignment table (`visualize.py` lines 219-244). -/
def rowOf (fill1 : MatchKind → Option String) (a1 : AlignmentRecord)
    (a2 : Option AlignmentRecord) (i : ℕ) : Option Row :=
  match leftCellOf a1 i,
        mapMOpt (cellOf fill1 a1 a2 i) (List.range a1.sen2.length),
        rightCellOf a2 i with
  | some left, some cells, some right => some ⟨left, cells, right⟩
  | _, _, _ => none

/-- `max_len = max(len(a1.sen1), len(a2.sen1)) if a2 else len(a1.sen1)`
(`visualize.py` line 214). -/
def max_len (a1 : AlignmentRecord) (a2 : Option AlignmentRecord) : ℕ :=
  match a2 with
  | some a2 => max a1.sen1.length a2.sen1.length
  | none => a1.sen1.length

/-- The table body: one row per `i in range(max_len)`, with the left fill
dictionary `FILL_L` in compare mode and `FILL` otherwise
(`visualize.py` lines 215-244). -/
def bodyRows (a1 : AlignmentRecord) (a2 : Option AlignmentRecord) :
    Option (List Row) :=
  mapMOpt (rowOf (if a2.isSome then FILL_L else FILL) a1 a2)
    (List.range (max_len a1 a2))

/-- The rotated reference-token header row (`visualize.py` lines 203-212):
per reference position its color index and escaped token. -/
def headerCells (a1 : AlignmentRecord) : List (ℕ × String) :=
  (List.range a1.sen2.length).map (fun i => (i, escape (a1.sen2.getD i "")))

/-- The `a_type` argument of `print_align_table`: `ALIGN_DEFAULT` or
`ALIGN_METEOR` (constants of the repository's `alignment` module). -/
inductive AlignType where
  | default : AlignType
  | meteor : AlignType
deriving DecidableEq, Repr

/-- The LaTeX color a signed metric delta is wrapped in: `gb` (dark
green) or `rb` (dark red). -/
inductive TexColor where
  | gb : TexColor
  | rb : TexColor
deriving DecidableEq, Repr

/-- The compare-mode score summary rows (`visualize.py` lines 256-267):
each metric's two values, signed delta, and delta color. -/
structure CompareStats where
  p1 : ℚ
  p2 : ℚ
  p_diff : ℚ
  p_color : TexColor
  r1 : ℚ
  r2 : ℚ
  r_diff : ℚ
  r_color : TexColor
  frag1 : ℚ
  frag2 : ℚ
  fr_diff : ℚ
  fr_color : TexColor
  score1 : ℚ
  score2 : ℚ
  sc_diff : ℚ
  sc_color : TexColor
deriving DecidableEq, Repr

/-- The alignment-information block below the table (`visualize.py`
lines 250-275): the bare name for `ALIGN_DEFAULT`, the single-system
P/R/Frag/Score block, or the compare block. -/
inductive StatsBlock where
  | plain (name : String) : StatsBlock
  | single (p r frag score : ℚ) : StatsBlock
  | compare (c : CompareStats) : StatsBlock
deriving DecidableEq, Repr

/-- Builds the stats block (`visualize.py` lines 250-275).  Deltas are
`a2.x - a1.x`; `P`, `R` and `Score` are colored `gb` when the delta is
`>= 0` and `rb` otherwise, while `Frag` is colored `rb` when the delta is
`> 0` and `gb` otherwise. -/
def statsBlock (a1 : AlignmentRecord) (a2 : Option AlignmentRecord)
    (a_type : AlignType) : StatsBlock :=
  match a_type with
  | AlignType.default => StatsBlock.plain a1.name
  | AlignType.meteor =>
    match a2 with
    | some a2 =>
      StatsBlock.compare
        { p1 := a1.p
          p2 := a2.p
          p_diff := a2.p - a1.p
          p_color := if 0 ≤ a2.p - a1.p then TexColor.gb else TexColor.rb
          r1 := a1.r
          r2 := a2.r
          r_diff := a2.r - a1.r
          r_color := if 0 ≤ a2.r - a1.r then TexColor.gb else TexColor.rb
          frag1 := a1.frag
          frag2 := a2.frag
          fr_diff := a2.frag - a1.frag
          fr_color := if 0 < a2.frag - a1.frag then TexColor.rb else TexColor.gb
          score1 := a1.score
          score2 := a2.score
          sc_diff := a2.score - a1.score
          sc_color := if 0 ≤ a2.score - a1.score then TexColor.gb
            else TexColor.rb }
    | none => StatsBlock.single a1.p a1.r a1.frag a1.score

/-- The structured content of one rendered alignment table
(`print_align_table` in `visualize.py`): the emitted `\definecolor`
triples, the number of `p{10pt}` data columns, whether the compare-mode
legend cells are present, the header row, the body rows, and the stats
block. -/
structure AlignTable where
  colorDefs : List (ℚ × ℚ × ℚ)
  numDataCols : ℕ
  legend : Bool
  header : List (ℕ × String)
  rows : List Row
  stats : StatsBlock
deriving DecidableEq, Repr

/-- `print_align_table(tex_out, a1, a2, a_type)` from `visualize.py`,
as a pure function: `none` models an exception escaping the call. -/
def print_align_table (a1 : AlignmentRecord) (a2 : Option AlignmentRecord)
    (a_type : AlignType) : Option AlignTable :=
  match bodyRows a1 a2 with
  | none => none
  | some rows =>
    some { colorDefs := gradientColors a1.sen2.length
           numDataCols := a1.sen2.length
           legend := a2.isSome
           header := headerCells a1
           rows := rows
           stats := statsBlock a1 a2 a_type }

/-! ### The `xray.py` pipeline -/

/-- Modelled from the spec: the transient `ScoreSample` tuple
`(score, frag, p, r, sen_len)` extracted per record for distribution
binning (spec §3); produced by `extract_scores` of the repository's
`alignment` module, which is not under `src/`. -/
structure ScoreSample where
  score : ℚ
  frag : ℚ
  p : ℚ
  r : ℚ
  sen_len : ℕ
deriving DecidableEq, Repr

/-- Modelled from the spec: `extract_scores` of the repository's
`alignment` module (not under `src/`) — one `ScoreSample` per record. -/
def extract_scores (recs : List AlignmentRecord) : List ScoreSample :=
  recs.map (fun a => ⟨a.score, a.frag, a.p, a.r, a.sen_len⟩)

/-- Modelled from the spec: `cmp_score_diff` of the repository's
`alignment` module (not under `src/`) — three-way comparison of record
pairs by score improvement `a2.score - a1.score` (spec §4.3). -/
def cmp_score_diff (x y : AlignmentRecord × AlignmentRecord) : Int :=
  if x.2.score - x.1.score < y.2.score - y.1.score then -1
  else if y.2.score - y.1.score < x.2.score - x.1.score then 1
  else 0

/-- Modelled from the spec: `cmp_score_best` of the repository's
`alignment` module (not under `src/`) — three-way comparison of record
pairs by the better of the two scores `max(a1.score, a2.score)`
(spec §4.3). -/
def cmp_score_best (x y : AlignmentRecord × AlignmentRecord) : Int :=
  if max x.1.score x.2.score < max y.1.score y.2.score then -1
  else if max y.1.score y.2.score < max x.1.score x.2.score then 1
  else 0

/-- `alignments.sort(key=cmp_to_key(cmp_score_best if best_first else
cmp_score_diff), reverse=True)` from `xray.py` (lines 119-121): a stable
descending sort placing `x` before `y` whenever the selected comparator
does not rank `x` strictly below `y`. -/
def sortPairs (best_first : Bool)
    (pairs : List (AlignmentRecord × AlignmentRecord)) :
    List (AlignmentRecord × AlignmentRecord) :=
  pairs.mergeSort
    (fun x y =>
      decide (0 ≤ (if best_first then cmp_score_best else cmp_score_diff) x y))

/-- The compare-mode rendering loop of `xray.py` (`main`, lines 132-139):
pairs failing `check_printable` are skipped with `continue`; the others
are rendered in order; a rendering failure (raised exception) aborts the
whole batch. -/
def renderPairs : List (AlignmentRecord × AlignmentRecord) →
    Option (List AlignTable)
  | [] => some []
  | (a1, a2) :: rest =>
    if check_printable a1 (some a2) then
      match print_align_table a1 (some a2) AlignType.meteor,
            renderPairs rest with
      | some t, some ts => some (t :: ts)
      | _, _ => none
    else renderPairs rest

/-- The compare branch of `xray.py`'s `main` (lines 114-139): the two
score-sample lists are extracted from the full alignment lists first;
only then are the records zipped, sorted and the printable pairs
rendered. -/
structure CompareRun where
  seg_scores : List (List ScoreSample)
  tables : Option (List AlignTable)
deriving Repr

/-- The compare branch of `xray.py`'s `main` as a pure pipeline. -/
def compareMain (best_first : Bool) (align1 align2 : List AlignmentRecord) :
    CompareRun :=
  { seg_scores := [extract_scores align1, extract_scores align2]
    tables := renderPairs (sortPairs best_first (align1.zip align2)) }

/-- The length pre-filter of the two-ended score-by-length bins
(`xray.py` line 212): keep a sample exactly when
`r[0] <= sen_len <= r[1]`. -/
def filter_len_range (lo hi : ℕ) (scores : List ScoreSample) :
    List ScoreSample :=
  scores.filter (fun x => decide (lo ≤ x.sen_len) && decide (x.sen_len ≤ hi))

/-- The length pre-filter of the open-ended `51+` bin (`xray.py`
line 214): keep a sample exactly when `sen_len >= r[0]`. -/
def filter_len_open (lo : ℕ) (scores : List ScoreSample) :
    List ScoreSample :=
  scores.filter (fun x => decide (lo ≤ x.sen_len))

/-- Modelled from the spec: the bucket index `get_score_dist` of the
repository's `alignment` module (not under `src/`) assigns to a value in
`[0,1]`: fixed-width `0.1` buckets, a value exactly `1.0` falling into
the last bucket (spec §4.4). -/
def bucketOf (v : ℚ) : ℕ :=
  if 1 ≤ v then 9 else (⌊10 * v⌋).toNat

/-- Modelled from the spec: `get_score_dist` of the repository's
`alignment` module (not under `src/`) — the ordered sequence of the 10
bucket counts (spec §4.4). -/
def get_score_dist (values : List ℚ) : List ℕ :=
  (List.range 10).map
    (fun b => values.countP (fun v => decide (bucketOf v = b)))

/-- A score sample with the given sentence length and zero metrics. -/
def mkSample (n : ℕ) : ScoreSample := ⟨0, 0, 0, 0, n⟩

/-- A record with the given combined score and empty sentences. -/
def mkScored (s : ℚ) : AlignmentRecord :=
  { mkRecord "s" [] [] with score := s }

/-- Concrete compare pair: system 1 scores 0.3, system 2 scores 0.8
(improvement +0.5, best 0.8). -/
def pairA : AlignmentRecord × AlignmentRecord :=
  (mkScored (3/10), mkScored (8/10))

/-- Concrete compare pair: system 1 scores 0.7, system 2 scores 0.6
(improvement -0.1, best 0.7). -/
def pairB : AlignmentRecord × AlignmentRecord :=
  (mkScored (7/10), mkScored (6/10))

/-- Concrete record: one matched hypothesis token against a one-token
reference. -/
def W1 : AlignmentRecord :=
  { name := "w1"
    sen1 := ["a"]
    sen2 := ["b"]
    matrix := [[some MatchKind.ex]]
    sen1_matched := [some 0]
    p := 1/2
    r := 1/2
    frag := 1/2
    score := 1/2
    sen_len := 1 }

/-- Concrete record: two hypothesis tokens against the same one-token
reference as `W1`, no matches. -/
def W2 : AlignmentRecord :=
  { name := "w2"
    sen1 := ["c", "d"]
    sen2 := ["b"]
    matrix := [[none], [none]]
    sen1_matched := [none, none]
    p := 1/4
    r := 1/4
    frag := 1/4
    score := 1/4
    sen_len := 1 }

/-- Concrete record with an empty reference. -/
def W3 : AlignmentRecord := mkRecord "w3" ["a", "b"] []

/-- Concrete record whose matrix is missing the row for its only
hypothesis token. -/
def W4 : AlignmentRecord :=
  { name := "w4"
    sen1 := ["a"]
    sen2 := ["b"]
    matrix := []
    sen1_matched := [none]
    p := 0
    r := 0
    frag := 0
    score := 0
    sen_len := 1 }

/-- A default table value used to extract from an `Option AlignTable`. -/
def defaultTable : AlignTable :=
  { colorDefs := []
    numDataCols := 0
    legend := false
    header := []
    rows := []
    stats := StatsBlock.plain "" }

end MeteorXray

namespace MeteorXray

/-! ### Lemmas about the color gradient -/

lemma half_le_iff (N i : ℕ) : ((N : ℚ) / 2 ≤ (i : ℚ)) ↔ (N ≤ 2 * i) := by
  rw [div_le_iff₀ (by norm_num : (0:ℚ) < 2), mul_comm]
  exact_mod_cast Iff.rfl

lemma stepOf_nonneg (N : ℕ) : 0 ≤ stepOf N :=
  div_nonneg (by norm_num) (Nat.cast_nonneg _)

lemma gradState_succ (N i : ℕ) :
    gradState N (i + 1)
      = gradUpdate (stepOf N) (decide ((N : ℚ) / 2 ≤ (i : ℚ))) (gradState N i) := rfl

lemma gradAux_eq_map (N : ℕ) :
    ∀ (n s : ℕ),
      gradAux (stepOf N) ((N : ℚ) / 2) (List.range' s n) (gradState N s)
        = (List.range' s n).map (fun i => clampTriple (gradState N (i + 1))) := by
  intro n
  induction n with
  | zero => intro s; simp [gradAux]
  | succ n ih =>
    intro s
    rw [List.range'_succ]
    simp only [gradAux, List.map_cons]
    rw [← gradState_succ, ih (s + 1)]

lemma gradientColors_eq_map (N : ℕ) :
    gradientColors N
      = (List.range N).map (fun i => clampTriple (gradState N (i + 1))) := by
  have h := gradAux_eq_map N N 0
  rw [gradientColors, List.range_eq_range']
  exact h

lemma gradState_r_ge (N : ℕ) : ∀ i : ℕ, 3/5 ≤ (gradState N i).1 := by
  intro i
  induction i with
  | zero => norm_num [gradState]
  | succ i ih =>
    rw [gradState_succ]
    have hs := stepOf_nonneg N
    cases h : decide ((N : ℚ) / 2 ≤ (i : ℚ)) <;>
      · simp only [gradUpdate, h, if_true, if_false, Bool.false_eq_true, reduceIte]
        nlinarith

lemma gradState_g_ge (N : ℕ) : ∀ i : ℕ, 3/5 ≤ (gradState N i).2.1 := by
  intro i
  induction i with
  | zero => norm_num [gradState]
  | succ i ih =>
    rw [gradState_succ]
    have hs := stepOf_nonneg N
    cases h : decide ((N : ℚ) / 2 ≤ (i : ℚ)) <;>
      · simp only [gradUpdate, h, if_true, if_false, Bool.false_eq_true, reduceIte]
        nlinarith

lemma gradWeight_nil (half : ℚ) : gradWeight half [] = 0 := rfl

lemma gradWeight_cons (half : ℚ) (i : ℕ) (l : List ℕ) :
    gradWeight half (i :: l)
      = (if half ≤ (i : ℚ) then (3/2 : ℚ) else 1/2) + gradWeight half l := by
  simp [gradWeight]

lemma gradWeight_nonneg (half : ℚ) : ∀ l : List ℕ, 0 ≤ gradWeight half l := by
  intro l
  induction l with
  | nil => norm_num [gradWeight_nil]
  | cons i l ih =>
    rw [gradWeight_cons]
    by_cases h : half ≤ (i : ℚ) <;> simp [h] <;> linarith

lemma gradWeight_eq_countP (half : ℚ) : ∀ l : List ℕ,
    gradWeight half l
      = (l.length : ℚ) * (1/2)
        + ((l.countP (fun (i : ℕ) => decide (half ≤ (i : ℚ)))) : ℚ) := by
  intro l
  induction l with
  | nil => simp [gradWeight_nil]
  | cons i l ih =>
    rw [gradWeight_cons, ih, List.countP_cons]
    by_cases h : half ≤ (i : ℚ) <;>
      · simp [h]
        push_cast
        ring

lemma countP_range_two_mul (N : ℕ) : ∀ m : ℕ,
    (List.range m).countP (fun i => decide (N ≤ 2 * i)) = m - (N + 1) / 2 := by
  intro m
  induction m with
  | zero => simp
  | succ m ih =>
    rw [List.range_succ, List.countP_append, ih, List.countP_cons]
    by_cases h : N ≤ 2 * m <;> · simp [h]; omega

lemma countP_half_eq (N m : ℕ) :
    (List.range m).countP (fun (i : ℕ) => decide ((N : ℚ) / 2 ≤ (i : ℚ)))
      = m - (N + 1) / 2 := by
  rw [← countP_range_two_mul N m]
  apply List.countP_congr
  intro i _
  simp only [decide_eq_true_eq]
  exact half_le_iff N i

lemma step_mul_weight_le (N : ℕ) :
    stepOf N * gradWeight ((N : ℚ) / 2) (List.range N) ≤ 2/5 := by
  have hW : gradWeight ((N : ℚ) / 2) (List.range N)
      = (N : ℚ) * (1/2) + ((N - (N + 1) / 2 : ℕ) : ℚ) := by
    rw [gradWeight_eq_countP, countP_half_eq, List.length_range]
  have hc : (2 : ℚ) * ((N - (N + 1) / 2 : ℕ) : ℚ) ≤ (N : ℚ) := by
    have : 2 * (N - (N + 1) / 2) ≤ N := by omega
    exact_mod_cast this
  have hWN : gradWeight ((N : ℚ) / 2) (List.range N) ≤ (N : ℚ) := by
    rw [hW]; linarith
  have hNM : (N : ℚ) ≤ ((max 1 N : ℕ) : ℚ) := by
    exact_mod_cast Nat.le_max_right 1 N
  have hMpos : (0 : ℚ) < ((max 1 N : ℕ) : ℚ) := by
    have : (1 : ℕ) ≤ max 1 N := Nat.le_max_left 1 N
    exact_mod_cast Nat.lt_of_lt_of_le Nat.zero_lt_one this
  have hle : stepOf N * gradWeight ((N : ℚ) / 2) (List.range N)
      ≤ stepOf N * ((max 1 N : ℕ) : ℚ) :=
    mul_le_mul_of_nonneg_left (le_trans hWN hNM) (stepOf_nonneg N)
  calc stepOf N * gradWeight ((N : ℚ) / 2) (List.range N)
      ≤ stepOf N * ((max 1 N : ℕ) : ℚ) := hle
    _ = 2/5 := by rw [stepOf, div_mul_cancel₀]; exact ne_of_gt hMpos

lemma gradState_b_ge (N : ℕ) : ∀ i : ℕ, i ≤ N →
    3/5 + stepOf N * gradWeight ((N : ℚ) / 2) (List.range' i (N - i))
      ≤ (gradState N i).2.2 := by
  intro i
  induction i with
  | zero =>
    intro _
    have h := step_mul_weight_le N
    rw [List.range_eq_range'] at h
    simpa [gradState] using by linarith
  | succ i ih =>
    intro h
    have hi : i ≤ N := Nat.le_of_succ_le h
    have hb := ih hi
    have hrange : List.range' i (N - i) = i :: List.range' (i + 1) (N - (i + 1)) := by
      have hNi : N - i = (N - (i + 1)) + 1 := by omega
      rw [hNi, List.range'_succ]
    rw [hrange, gradWeight_cons] at hb
    rw [gradState_succ]
    cases hdec : decide ((N : ℚ) / 2 ≤ (i : ℚ))
    · have hprop : ¬ ((N : ℚ) / 2 ≤ (i : ℚ)) := of_decide_eq_false hdec
      simp only [gradUpdate, Bool.false_eq_true, reduceIte]
      rw [if_neg hprop] at hb
      linarith
    · have hprop : ((N : ℚ) / 2 ≤ (i : ℚ)) := of_decide_eq_true hdec
      simp only [gradUpdate, reduceIte]
      rw [if_pos hprop] at hb
      linarith

lemma gradState_b_ge' (N i : ℕ) (h : i ≤ N) : 3/5 ≤ (gradState N i).2.2 := by
  have h1 := gradState_b_ge N i h
  have h2 : 0 ≤ stepOf N * gradWeight ((N : ℚ) / 2) (List.range' i (N - i)) :=
    mul_nonneg (stepOf_nonneg N) (gradWeight_nonneg _ _)
  linarith

lemma clampTriple_bounds (c : ℚ × ℚ × ℚ)
    (h1 : 3/5 ≤ c.1) (h2 : 3/5 ≤ c.2.1) (h3 : 3/5 ≤ c.2.2) :
    0 ≤ (clampTriple c).1 ∧ (clampTriple c).1 ≤ 1
    ∧ 0 ≤ (clampTriple c).2.1 ∧ (clampTriple c).2.1 ≤ 1
    ∧ 0 ≤ (clampTriple c).2.2 ∧ (clampTriple c).2.2 ≤ 1 := by
  unfold clampTriple
  refine ⟨le_min (by norm_num) (by linarith), min_le_left _ _,
    le_min (by norm_num) (by linarith), min_le_left _ _,
    le_min (by norm_num) (by linarith), min_le_left _ _⟩

/-! ### Lemmas about the fallible renderer -/

lemma mapMOpt_length {α β : Type} (f : α → Option β) :
    ∀ (l : List α) (bs : List β), mapMOpt f l = some bs → bs.length = l.length := by
  intro l
  induction l with
  | nil =>
    intro bs h
    simp only [mapMOpt, Option.some_inj] at h
    subst h
    rfl
  | cons a l ih =>
    intro bs h
    simp only [mapMOpt] at h
    cases hf : f a with
    | none => rw [hf] at h; simp at h
    | some b =>
      rw [hf] at h
      cases hm : mapMOpt f l with
      | none => rw [hm] at h; simp at h
      | some bs2 =>
        rw [hm] at h
        simp only [Option.some_inj] at h
        subst h
        simp [ih bs2 hm]

lemma mapMOpt_getElem? {α β : Type} (f : α → Option β) :
    ∀ (l : List α) (bs : List β), mapMOpt f l = some bs →
      ∀ i : ℕ, bs[i]? = (l[i]?).bind f := by
  intro l
  induction l with
  | nil =>
    intro bs h i
    simp only [mapMOpt, Option.some_inj] at h
    subst h
    simp
  | cons a l ih =>
    intro bs h i
    simp only [mapMOpt] at h
    cases hf : f a with
    | none => rw [hf] at h; simp at h
    | some b =>
      rw [hf] at h
      cases hm : mapMOpt f l with
      | none => rw [hm] at h; simp at h
      | some bs2 =>
        rw [hm] at h
        simp only [Option.some_inj] at h
        subst h
        cases i with
        | zero => simp [hf]
        | succ i => simpa using ih bs2 hm i

lemma mapMOpt_mem {α β : Type} (f : α → Option β) :
    ∀ (l : List α) (bs : List β), mapMOpt f l = some bs →
      ∀ b ∈ bs, ∃ a ∈ l, f a = some b := by
  intro l
  induction l with
  | nil =>
    intro bs h b hb
    simp only [mapMOpt, Option.some_inj] at h
    subst h
    simp at hb
  | cons a l ih =>
    intro bs h b hb
    simp only [mapMOpt] at h
    cases hf : f a with
    | none => rw [hf] at h; simp at h
    | some b0 =>
      rw [hf] at h
      cases hm : mapMOpt f l with
      | none => rw [hm] at h; simp at h
      | some bs2 =>
        rw [hm] at h
        simp only [Option.some_inj] at h
        subst h
        rcases List.mem_cons.mp hb with hb | hb
        · exact ⟨a, List.mem_cons_self a l, hb ▸ hf⟩
        · obtain ⟨a2, ha2, hfa2⟩ := ih bs2 hm b hb
          exact ⟨a2, List.mem_cons_of_mem a ha2, hfa2⟩

lemma mapMOpt_isSome {α β : Type} (f : α → Option β) :
    ∀ l : List α, (∀ a ∈ l, ∃ b, f a = some b) →
      ∃ bs, mapMOpt f l = some bs := by
  intro l
  induction l with
  | nil => intro _; exact ⟨[], rfl⟩
  | cons a l ih =>
    intro h
    obtain ⟨b, hb⟩ := h a (List.mem_cons_self a l)
    obtain ⟨bs, hbs⟩ := ih (fun x hx => h x (List.mem_cons_of_mem a hx))
    refine ⟨b :: bs, ?_⟩
    simp only [mapMOpt, hb, hbs]

lemma rowOf_eq_some {fill1 : MatchKind → Option String} {a1 : AlignmentRecord}
    {a2 : Option AlignmentRecord} {i : ℕ} {row : Row}
    (h : rowOf fill1 a1 a2 i = some row) :
    leftCellOf a1 i = some row.left
    ∧ mapMOpt (cellOf fill1 a1 a2 i) (List.range a1.sen2.length) = some row.cells
    ∧ rightCellOf a2 i = some row.right := by
  unfold rowOf at h
  cases h1 : leftCellOf a1 i <;> rw [h1] at h
  · simp at h
  cases h2 : mapMOpt (cellOf fill1 a1 a2 i) (List.range a1.sen2.length) <;> rw [h2] at h
  · simp at h
  cases h3 : rightCellOf a2 i <;> rw [h3] at h
  · simp at h
  simp only [Option.some_inj] at h
  subst h
  exact ⟨rfl, rfl, rfl⟩

lemma print_align_table_eq_some {a1 : AlignmentRecord} {a2 : Option AlignmentRecord}
    {aty : AlignType} {t : AlignTable}
    (h : print_align_table a1 a2 aty = some t) :
    bodyRows a1 a2 = some t.rows
    ∧ t.colorDefs = gradientColors a1.sen2.length
    ∧ t.numDataCols = a1.sen2.length
    ∧ t.stats = statsBlock a1 a2 aty := by
  unfold print_align_table at h
  cases hb : bodyRows a1 a2 <;> rw [hb] at h
  · simp at h
  · simp only [Option.some_inj] at h
    subst h
    exact ⟨rfl, rfl, rfl, rfl⟩

lemma sen1_le_max_len (a1 : AlignmentRecord) (a2 : Option AlignmentRecord) :
    a1.sen1.length ≤ max_len a1 a2 := by
  cases a2 <;> simp [max_len]

lemma sen1'_le_max_len (a1 b : AlignmentRecord) :
    b.sen1.length ≤ max_len a1 (some b) := by
  simp [max_len]

/-- A successful render makes every in-rectangle matrix lookup of `a` (as
positioned by `sel`) succeed; shared argument for both systems. -/
lemma bodyRows_matrix_some {fill1 : MatchKind → Option String}
    {a1 : AlignmentRecord} {a2 : Option AlignmentRecord} {rows : List Row}
    (h : mapMOpt (rowOf fill1 a1 a2) (List.range (max_len a1 a2)) = some rows) :
    (∀ i j : ℕ, i < a1.sen1.length → j < a1.sen2.length →
      (matrixLookup a1.matrix i j).isSome)
    ∧ (∀ b, a2 = some b → ∀ i j : ℕ, i < b.sen1.length → j < a1.sen2.length →
      (matrixLookup b.matrix i j).isSome) := by
  have hlen : rows.length = max_len a1 a2 := by
    have := mapMOpt_length _ _ _ h
    simpa using this
  have hrow : ∀ i : ℕ, i < max_len a1 a2 → ∃ row, rowOf fill1 a1 a2 i = some row := by
    intro i hi
    have hget := mapMOpt_getElem? _ _ _ h i
    rw [List.getElem?_range hi] at hget
    have hi2 : i < rows.length := hlen ▸ hi
    rw [List.getElem?_eq_getElem hi2] at hget
    exact ⟨rows[i], hget.symm⟩
  have hcell : ∀ i : ℕ, i < max_len a1 a2 → ∀ j : ℕ, j < a1.sen2.length →
      ∃ c, cellOf fill1 a1 a2 i j = some c := by
    intro i hi j hj
    obtain ⟨row, hrowi⟩ := hrow i hi
    obtain ⟨_, hcells, _⟩ := rowOf_eq_some hrowi
    have hget := mapMOpt_getElem? _ _ _ hcells j
    rw [List.getElem?_range hj] at hget
    have hj2 : j < row.cells.length := by
      have := mapMOpt_length _ _ _ hcells
      simp only [List.length_range] at this
      omega
    rw [List.getElem?_eq_getElem hj2] at hget
    exact ⟨row.cells[j], hget.symm⟩
  constructor
  · intro i j hi hj
    have hi' : i < max_len a1 a2 := lt_of_lt_of_le hi (sen1_le_max_len a1 a2)
    obtain ⟨c, hc⟩ := hcell i hi' j hj
    unfold cellOf at hc
    cases hml : cellSys fill1 a1 i j <;> rw [hml] at hc
    · simp at hc
    · unfold cellSys at hml
      rw [if_pos hi] at hml
      cases hmx : matrixLookup a1.matrix i j <;> rw [hmx] at hml
      · simp at hml
      · simp
  · intro b hb i j hi hj
    subst hb
    have hi' : i < max_len a1 (some b) := lt_of_lt_of_le hi (sen1'_le_max_len a1 b)
    obtain ⟨c, hc⟩ := hcell i hi' j hj
    unfold cellOf at hc
    cases hml : cellSys fill1 a1 i j <;> rw [hml] at hc
    · simp at hc
    · simp only at hc
      cases hmr : cellSys FILL_R b i j <;> rw [hmr] at hc
      · simp at hc
      · unfold cellSys at hmr
        rw [if_pos hi] at hmr
        cases hmx : matrixLookup b.matrix i j <;> rw [hmx] at hmr
        · simp at hmr
        · simp

lemma cellSys_of_ge {fill : MatchKind → Option String} {a : AlignmentRecord}
    {i j : ℕ} (h : ¬ i < a.sen1.length) : cellSys fill a i j = some none := by
  unfold cellSys
  rw [if_neg h]

lemma cellOf_eq_some {fill1 : MatchKind → Option String} {a1 : AlignmentRecord}
    {a2 : Option AlignmentRecord} {i j : ℕ} {c : RowCell}
    (h : cellOf fill1 a1 a2 i j = some c) :
    cellSys fill1 a1 i j = some c.fill1
    ∧ (∀ b, a2 = some b → cellSys FILL_R b i j = some c.fill2) := by
  unfold cellOf at h
  cases h1 : cellSys fill1 a1 i j <;> rw [h1] at h
  · simp at h
  cases a2 with
  | none =>
    simp only [Option.some_inj] at h
    subst h
    exact ⟨rfl, by intro b hb; cases hb⟩
  | some b =>
    dsimp only at h
    cases h2 : cellSys FILL_R b i j <;> rw [h2] at h
    · simp at h
    · simp only [Option.some_inj] at h
      subst h
      refine ⟨rfl, ?_⟩
      intro b2 hb2
      injection hb2 with hb2
      subst hb2
      exact h2

lemma gradientColors_zero : gradientColors 0 = [] := rfl

/-! ### Lemmas for the comparator model -/

lemma cmp_diff_nonneg_iff (x y : AlignmentRecord × AlignmentRecord) :
    (0 ≤ cmp_score_diff x y)
      ↔ (y.2.score - y.1.score ≤ x.2.score - x.1.score) := by
  unfold cmp_score_diff
  split_ifs with h1 h2
  · exact iff_of_false (by norm_num) (not_le.mpr h1)
  · exact iff_of_true (by norm_num) (le_of_lt h2)
  · exact iff_of_true (le_refl 0) (by linarith)

lemma cmp_best_nonneg_iff (x y : AlignmentRecord × AlignmentRecord) :
    (0 ≤ cmp_score_best x y)
      ↔ (max y.1.score y.2.score ≤ max x.1.score x.2.score) := by
  unfold cmp_score_best
  split_ifs with h1 h2
  · exact iff_of_false (by norm_num) (not_le.mpr h1)
  · exact iff_of_true (by norm_num) (le_of_lt h2)
  · exact iff_of_true (le_refl 0) (by linarith)

lemma sortPairs_false_sorted (ps : List (AlignmentRecord × AlignmentRecord)) :
    (sortPairs false ps).Pairwise
      (fun x y => y.2.score - y.1.score ≤ x.2.score - x.1.score) := by
  have h := @List.sorted_mergeSort (AlignmentRecord × AlignmentRecord)
    (fun x y => decide (0 ≤ cmp_score_diff x y))
    (fun a b c hab hbc => by
      simp only [decide_eq_true_eq, cmp_diff_nonneg_iff] at *
      linarith)
    (fun a b => by
      simp only [Bool.or_eq_true, decide_eq_true_eq, cmp_diff_nonneg_iff]
      exact le_total _ _)
    ps
  exact h.imp (fun hab => by
    simpa only [decide_eq_true_eq, cmp_diff_nonneg_iff] using hab)

lemma sortPairs_true_sorted (ps : List (AlignmentRecord × AlignmentRecord)) :
    (sortPairs true ps).Pairwise
      (fun x y => max y.1.score y.2.score ≤ max x.1.score x.2.score) := by
  have h := @List.sorted_mergeSort (AlignmentRecord × AlignmentRecord)
    (fun x y => decide (0 ≤ cmp_score_best x y))
    (fun a b c hab hbc => by
      simp only [decide_eq_true_eq, cmp_best_nonneg_iff] at *
      linarith)
    (fun a b => by
      simp only [Bool.or_eq_true, decide_eq_true_eq, cmp_best_nonneg_iff]
      exact le_total _ _)
    ps
  exact h.imp (fun hab => by
    simpa only [decide_eq_true_eq, cmp_best_nonneg_iff] using hab)

lemma sortPairs_false_concrete :
    sortPairs false [pairA, pairB] = [pairA, pairB] := by
  apply List.mergeSort_of_sorted
  refine List.pairwise_cons.mpr ⟨?_, List.pairwise_singleton _ _⟩
  intro y hy
  rw [List.mem_singleton] at hy
  subst hy
  simp only [Bool.false_eq_true, reduceIte, decide_eq_true_eq, cmp_diff_nonneg_iff]
  show (6:ℚ)/10 - 7/10 ≤ 8/10 - 3/10
  norm_num

lemma sortPairs_true_concrete :
    sortPairs true [pairA, pairB] = [pairA, pairB] := by
  apply List.mergeSort_of_sorted
  refine List.pairwise_cons.mpr ⟨?_, List.pairwise_singleton _ _⟩
  intro y hy
  rw [List.mem_singleton] at hy
  subst hy
  simp only [reduceIte, decide_eq_true_eq, cmp_best_nonneg_iff]
  show max ((7:ℚ)/10) (6/10) ≤ max ((3:ℚ)/10) (8/10)
  rw [max_le_iff]
  constructor <;> · rw [le_max_iff]; right; norm_num

lemma pairA_ne_pairB : pairA ≠ pairB := by
  intro h
  have h2 : ((3:ℚ)/10) = 7/10 := congrArg (fun p => p.1.score) h
  norm_num at h2

/-! ### Lemmas for the score-distribution model -/

lemma bucketOf_lt (v : ℚ) (b : ℕ) (hb : b < 9)
    (h1 : (b : ℚ)/10 ≤ v) (h2 : v < ((b : ℚ) + 1)/10) : bucketOf v = b := by
  unfold bucketOf
  have hv1 : ¬ (1 : ℚ) ≤ v := by
    have hb9 : ((b : ℚ) + 1)/10 ≤ 1 := by
      have : (b : ℚ) ≤ 8 := by exact_mod_cast Nat.lt_succ_iff.mp hb
      linarith
    linarith
  rw [if_neg hv1]
  have hfl : ⌊10 * v⌋ = (b : ℤ) := by
    rw [Int.floor_eq_iff]
    constructor
    · push_cast
      linarith
    · push_cast
      linarith
  rw [hfl]
  exact Int.toNat_natCast b

lemma bucketOf_last (v : ℚ) (h1 : 9/10 ≤ v) (h2 : v ≤ 1) : bucketOf v = 9 := by
  unfold bucketOf
  by_cases hv1 : (1 : ℚ) ≤ v
  · rw [if_pos hv1]
  · rw [if_neg hv1]
    have hfl : ⌊10 * v⌋ = (9 : ℤ) := by
      rw [Int.floor_eq_iff]
      constructor
      · push_cast
        linarith
      · push_cast
        have : v < 1 := lt_of_not_ge hv1
        linarith
    rw [hfl]
    rfl

end MeteorXray

namespace MeteorXray

/-! ### Claim theorems -/

/-- C1: the color-gradient pass over a record with reference length `N`
emits exactly `N` color definitions, one per reference position, each RGB
channel lying in `[0,1]`; the emitted triple at position `i` is the clamp
of the running state advanced with step `0.4 / max(1, N)`, green-biased
for `2*i < N` (index below `N/2`) and red-biased for `N ≤ 2*i`; and the
same `N` always yields the same sequence of triples. -/
theorem color_gradient_spec :
    (∀ N : ℕ, (gradientColors N).length = N)
    ∧ (∀ N : ℕ, ∀ t ∈ gradientColors N,
        0 ≤ t.1 ∧ t.1 ≤ 1 ∧ 0 ≤ t.2.1 ∧ t.2.1 ≤ 1 ∧ 0 ≤ t.2.2 ∧ t.2.2 ≤ 1)
    ∧ (∀ N i : ℕ, i < N →
        (gradientColors N)[i]? = some (clampTriple (gradState N (i + 1))))
    ∧ (∀ N i : ℕ, 2 * i < N →
        gradState N (i + 1) = gradUpdate (stepOf N) false (gradState N i))
    ∧ (∀ N i : ℕ, N ≤ 2 * i →
        gradState N (i + 1) = gradUpdate (stepOf N) true (gradState N i))
    ∧ (∀ N : ℕ, gradientColors N = gradientColors N) := by
  refine ⟨?_, ?_, ?_, ?_, ?_, fun _ => rfl⟩
  · intro N
    rw [gradientColors_eq_map]
    simp
  · intro N t ht
    rw [gradientColors_eq_map] at ht
    simp only [List.mem_map, List.mem_range] at ht
    obtain ⟨i, hi, rfl⟩ := ht
    exact clampTriple_bounds _ (gradState_r_ge N (i + 1)) (gradState_g_ge N (i + 1))
      (gradState_b_ge' N (i + 1) hi)
  · intro N i hi
    rw [gradientColors_eq_map, List.getElem?_map, List.getElem?_range hi]
    rfl
  · intro N i hi
    rw [gradState_succ]
    have : decide ((N : ℚ) / 2 ≤ (i : ℚ)) = false := by
      rw [decide_eq_false_iff_not, half_le_iff]
      omega
    rw [this]
  · intro N i hi
    rw [gradState_succ]
    have : decide ((N : ℚ) / 2 ≤ (i : ℚ)) = true := by
      rw [decide_eq_true_eq, half_le_iff]
      omega
    rw [this]

/-- Witness for C1 at concrete inputs `N = 4`, `i = 1` (green half) and
`i = 3` (red half). -/
theorem color_gradient_spec_witness :
    (1 < 4 ∧ (gradientColors 4)[1]? = some (clampTriple (gradState 4 2)))
    ∧ (2 * 1 < 4 ∧ gradState 4 2 = gradUpdate (stepOf 4) false (gradState 4 1))
    ∧ (4 ≤ 2 * 3 ∧ gradState 4 4 = gradUpdate (stepOf 4) true (gradState 4 3)) :=
  ⟨⟨by norm_num, color_gradient_spec.2.2.1 4 1 (by norm_num)⟩,
   ⟨by norm_num, color_gradient_spec.2.2.2.1 4 1 (by norm_num)⟩,
   ⟨by norm_num, color_gradient_spec.2.2.2.2.1 4 3 (by norm_num)⟩⟩

/-- C2: `check_printable` returns `false` exactly when the first record's
reference length exceeds `MAX_LEN = 50`, or a second record is supplied
whose reference token sequence differs from the first's; a record with 51
reference tokens is skipped while one with 50 passes, and a compare pair
with different references is rejected. -/
theorem check_printable_spec :
    (∀ (a1 : AlignmentRecord) (a2 : Option AlignmentRecord),
      check_printable a1 a2 = false ↔
        (a1.sen2.length > 50 ∨ ∃ b, a2 = some b ∧ a1.sen2 ≠ b.sen2))
    ∧ check_printable (mkRecord "s" [] (toks 51)) none = false
    ∧ check_printable (mkRecord "s" [] (toks 50)) none = true
    ∧ check_printable (mkRecord "s" [] ["the", "cat"])
        (some (mkRecord "s" [] ["the", "dog"])) = false
    ∧ renderPairs [(mkRecord "s" [] ["the", "cat"],
        mkRecord "s" [] ["the", "dog"])] = some [] := by
  refine ⟨?_, by decide, by decide, by decide, by decide⟩
  intro a1 a2
  unfold check_printable MAX_LEN
  constructor
  · intro h
    by_cases hlen : a1.sen2.length > 50
    · exact Or.inl hlen
    · simp only [hlen, if_neg, ite_false, reduceIte] at h
      match a2 with
      | none => simp at h
      | some b =>
        refine Or.inr ⟨b, rfl, ?_⟩
        by_cases hne : a1.sen2 ≠ b.sen2
        · exact hne
        · simp [hne] at h
  · intro h
    rcases h with hlen | ⟨b, hb, hne⟩
    · simp [hlen]
    · subst hb
      by_cases hlen : a1.sen2.length > 50
      · simp [hlen]
      · simp [hlen, hne]

/-- C3: in compare mode the table body has exactly
`max(len(a1.sen1), len(a2.sen1))` rows; a row index at or beyond one
system's sentence length still yields a row whose cells for that system
are empty, never an omitted row; in single mode the body has exactly
`len(a1.sen1)` rows. -/
theorem row_count_spec :
    (∀ (a1 a2 : AlignmentRecord) (aty : AlignType) (t : AlignTable),
      print_align_table a1 (some a2) aty = some t →
        t.rows.length = max a1.sen1.length a2.sen1.length
        ∧ (∀ i : ℕ, i < t.rows.length → a1.sen1.length ≤ i →
            ∃ row, t.rows[i]? = some row ∧ row.left = none
              ∧ ∀ c ∈ row.cells, c.fill1 = none)
        ∧ (∀ i : ℕ, i < t.rows.length → a2.sen1.length ≤ i →
            ∃ row, t.rows[i]? = some row ∧ row.right = some none
              ∧ ∀ c ∈ row.cells, c.fill2 = none))
    ∧ (∀ (a1 : AlignmentRecord) (aty : AlignType) (t : AlignTable),
      print_align_table a1 none aty = some t →
        t.rows.length = a1.sen1.length) := by
  constructor
  · intro a1 a2 aty t h
    obtain ⟨hbody, -, -, -⟩ := print_align_table_eq_some h
    unfold bodyRows at hbody
    have hlen : t.rows.length = max_len a1 (some a2) := by
      have := mapMOpt_length _ _ _ hbody
      simpa using this
    have hrow : ∀ i : ℕ, i < t.rows.length →
        ∃ row, t.rows[i]? = some row
          ∧ rowOf (if (some a2).isSome then FILL_L else FILL) a1 (some a2) i
              = some row := by
      intro i hi
      have hget := mapMOpt_getElem? _ _ _ hbody i
      rw [List.getElem?_range (hlen ▸ hi)] at hget
      rw [List.getElem?_eq_getElem hi] at hget
      simp only [Option.some_bind] at hget
      exact ⟨t.rows[i], List.getElem?_eq_getElem hi, hget.symm⟩
    refine ⟨by simpa [max_len] using hlen, ?_, ?_⟩
    · intro i hi hge
      obtain ⟨row, hgt, hrowi⟩ := hrow i hi
      obtain ⟨hleft, hcells, -⟩ := rowOf_eq_some hrowi
      refine ⟨row, hgt, ?_, ?_⟩
      · unfold leftCellOf at hleft
        rw [if_neg (not_lt.mpr hge)] at hleft
        injection hleft with hleft
        exact hleft.symm
      · intro c hc
        obtain ⟨j, -, hcj⟩ := mapMOpt_mem _ _ _ hcells c hc
        obtain ⟨h1, -⟩ := cellOf_eq_some hcj
        rw [cellSys_of_ge (not_lt.mpr hge)] at h1
        injection h1 with h1
        exact h1.symm
    · intro i hi hge
      obtain ⟨row, hgt, hrowi⟩ := hrow i hi
      obtain ⟨-, hcells, hright⟩ := rowOf_eq_some hrowi
      refine ⟨row, hgt, ?_, ?_⟩
      · unfold rightCellOf at hright
        dsimp only at hright
        rw [if_neg (not_lt.mpr hge)] at hright
        injection hright with hright
        exact hright.symm
      · intro c hc
        obtain ⟨j, -, hcj⟩ := mapMOpt_mem _ _ _ hcells c hc
        obtain ⟨-, h2⟩ := cellOf_eq_some hcj
        have h2b := h2 a2 rfl
        rw [cellSys_of_ge (not_lt.mpr hge)] at h2b
        injection h2b with h2b
        exact h2b.symm
  · intro a1 aty t h
    obtain ⟨hbody, -, -, -⟩ := print_align_table_eq_some h
    unfold bodyRows at hbody
    have := mapMOpt_length _ _ _ hbody
    simpa [max_len] using this

/-- Witness for C3: the concrete pair `W1` (one hypothesis token) and
`W2` (two hypothesis tokens) renders with `max 1 2 = 2` body rows. -/
theorem row_count_spec_witness :
    ((print_align_table W1 (some W2) AlignType.meteor).getD defaultTable).rows.length
      = max W1.sen1.length W2.sen1.length := by
  have h : print_align_table W1 (some W2) AlignType.meteor
      = some ((print_align_table W1 (some W2) AlignType.meteor).getD defaultTable) := rfl
  exact (row_count_spec.1 W1 W2 AlignType.meteor _ h).1

/-- C4 counterexample: with the concrete pairs `pairA` (scores 0.3 vs
0.8) and `pairB` (scores 0.7 vs 0.6), the best-first flag does not invert
the iteration direction of the score-difference order: inverting would
yield `[pairB, pairA]`, but the flag yields `[pairA, pairB]` (it selects
the best-score comparator instead). -/
theorem best_first_flag_counterexample :
    sortPairs false [pairA, pairB] = [pairA, pairB]
    ∧ (sortPairs false [pairA, pairB]).reverse = [pairB, pairA]
    ∧ sortPairs true [pairA, pairB] = [pairA, pairB]
    ∧ sortPairs true [pairA, pairB] ≠ (sortPairs false [pairA, pairB]).reverse := by
  refine ⟨sortPairs_false_concrete, ?_, sortPairs_true_concrete, ?_⟩
  · rw [sortPairs_false_concrete]
    rfl
  · rw [sortPairs_true_concrete, sortPairs_false_concrete]
    intro h
    have h2 : pairA = pairB := by
      have := congrArg (fun l => l[0]?) h
      simpa using this
    exact pairA_ne_pairB h2

/-- C4 (amended): in compare mode, with the best-first flag unset the
pairs are ordered descending by `a2.score - a1.score`; setting the flag
selects the different comparator `cmp_score_best`, ordering descending by
`max(a1.score, a2.score)` — it does not merely invert the iteration
direction of `cmp_score_diff`. -/
theorem best_first_selects_best_spec :
    (∀ ps : List (AlignmentRecord × AlignmentRecord),
      (sortPairs false ps).Pairwise
        (fun x y => y.2.score - y.1.score ≤ x.2.score - x.1.score))
    ∧ (∀ ps : List (AlignmentRecord × AlignmentRecord),
      (sortPairs true ps).Pairwise
        (fun x y => max y.1.score y.2.score ≤ max x.1.score x.2.score))
    ∧ sortPairs true [pairA, pairB] = [pairA, pairB]
    ∧ sortPairs true [pairA, pairB] ≠ (sortPairs false [pairA, pairB]).reverse := by
  refine ⟨sortPairs_false_sorted, sortPairs_true_sorted, sortPairs_true_concrete, ?_⟩
  rw [sortPairs_true_concrete, sortPairs_false_concrete]
  intro h
  have h2 : pairA = pairB := by
    have := congrArg (fun l => l[0]?) h
    simpa using this
  exact pairA_ne_pairB h2

/-- C5: in the compare-mode score summary, each of the P, R and Score
deltas `a2.x - a1.x` is colored green (`gb`) exactly when it is
non-negative and red (`rb`) otherwise, while the fragmentation delta's
convention is inverted: red exactly when fragmentation increased
(`> 0`), green otherwise (so a lower fragmentation is green). -/
theorem delta_color_spec :
    ∀ a1 a2 : AlignmentRecord,
      ∃ c, statsBlock a1 (some a2) AlignType.meteor = StatsBlock.compare c
        ∧ c.p_diff = a2.p - a1.p ∧ c.r_diff = a2.r - a1.r
        ∧ c.fr_diff = a2.frag - a1.frag ∧ c.sc_diff = a2.score - a1.score
        ∧ (c.p_color = TexColor.gb ↔ 0 ≤ a2.p - a1.p)
        ∧ (c.p_color = TexColor.rb ↔ a2.p - a1.p < 0)
        ∧ (c.r_color = TexColor.gb ↔ 0 ≤ a2.r - a1.r)
        ∧ (c.r_color = TexColor.rb ↔ a2.r - a1.r < 0)
        ∧ (c.sc_color = TexColor.gb ↔ 0 ≤ a2.score - a1.score)
        ∧ (c.sc_color = TexColor.rb ↔ a2.score - a1.score < 0)
        ∧ (c.fr_color = TexColor.gb ↔ a2.frag - a1.frag ≤ 0)
        ∧ (c.fr_color = TexColor.rb ↔ 0 < a2.frag - a1.frag) := by
  intro a1 a2
  refine ⟨_, rfl, rfl, rfl, rfl, rfl, ?_, ?_, ?_, ?_, ?_, ?_, ?_, ?_⟩
  · show (if 0 ≤ a2.p - a1.p then TexColor.gb else TexColor.rb) = TexColor.gb ↔ _
    split_ifs with h <;> simp [h]
  · show (if 0 ≤ a2.p - a1.p then TexColor.gb else TexColor.rb) = TexColor.rb ↔ _
    split_ifs with h
    · simp [not_lt.mpr h]
    · simp [lt_of_not_ge h]
  · show (if 0 ≤ a2.r - a1.r then TexColor.gb else TexColor.rb) = TexColor.gb ↔ _
    split_ifs with h <;> simp [h]
  · show (if 0 ≤ a2.r - a1.r then TexColor.gb else TexColor.rb) = TexColor.rb ↔ _
    split_ifs with h
    · simp [not_lt.mpr h]
    · simp [lt_of_not_ge h]
  · show (if 0 ≤ a2.score - a1.score then TexColor.gb else TexColor.rb) = TexColor.gb ↔ _
    split_ifs with h <;> simp [h]
  · show (if 0 ≤ a2.score - a1.score then TexColor.gb else TexColor.rb) = TexColor.rb ↔ _
    split_ifs with h
    · simp [not_lt.mpr h]
    · simp [lt_of_not_ge h]
  · show (if 0 < a2.frag - a1.frag then TexColor.rb else TexColor.gb) = TexColor.gb ↔ _
    split_ifs with h
    · simp [not_le.mpr h]
    · simp [le_of_not_gt h]
  · show (if 0 < a2.frag - a1.frag then TexColor.rb else TexColor.gb) = TexColor.rb ↔ _
    split_ifs with h <;> simp [h]

/-- C6: a pair failing the printability check is skipped by the
compare-mode rendering loop — no table is emitted for it and the batch is
not aborted — while the score samples fed to the distribution statistics
are extracted from the full input lists before any printability check, so
every record (the skipped one included) contributes its
`(score, frag, p, r, sen_len)` sample. -/
theorem skip_still_counted_spec :
    (∀ (a1 a2 : AlignmentRecord) (rest : List (AlignmentRecord × AlignmentRecord)),
      check_printable a1 (some a2) = false →
        renderPairs ((a1, a2) :: rest) = renderPairs rest)
    ∧ (∀ (bf : Bool) (align1 align2 : List AlignmentRecord),
      (compareMain bf align1 align2).seg_scores
        = [extract_scores align1, extract_scores align2])
    ∧ (∀ (bf : Bool) (align1 align2 : List AlignmentRecord) (k : ℕ)
        (a : AlignmentRecord),
      align1[k]? = some a →
        ∃ samples, (compareMain bf align1 align2).seg_scores[0]? = some samples
          ∧ samples[k]? = some ⟨a.score, a.frag, a.p, a.r, a.sen_len⟩)
    ∧ (∀ (bf : Bool) (align1 align2 : List AlignmentRecord) (k : ℕ)
        (a : AlignmentRecord),
      align2[k]? = some a →
        ∃ samples, (compareMain bf align1 align2).seg_scores[1]? = some samples
          ∧ samples[k]? = some ⟨a.score, a.frag, a.p, a.r, a.sen_len⟩) := by
  refine ⟨?_, fun _ _ _ => rfl, ?_, ?_⟩
  · intro a1 a2 rest h
    simp only [renderPairs, h, Bool.false_eq_true, if_false]
  · intro bf align1 align2 k a hk
    refine ⟨extract_scores align1, rfl, ?_⟩
    unfold extract_scores
    rw [List.getElem?_map, hk]
    rfl
  · intro bf align1 align2 k a hk
    refine ⟨extract_scores align2, rfl, ?_⟩
    unfold extract_scores
    rw [List.getElem?_map, hk]
    rfl

/-- Witness for C6: the mismatched-reference pair is skipped by the loop
(no table, no abort), yet its system-1 record still contributes its score
sample. -/
theorem skip_still_counted_spec_witness :
    (check_printable (mkRecord "s" [] ["the", "cat"])
        (some (mkRecord "s" [] ["the", "dog"])) = false
      ∧ renderPairs [(mkRecord "s" [] ["the", "cat"],
          mkRecord "s" [] ["the", "dog"])] = renderPairs [])
    ∧ ∃ samples,
        (compareMain false [mkScored 1] []).seg_scores[0]? = some samples
        ∧ samples[0]? = some ⟨(mkScored 1).score, (mkScored 1).frag,
            (mkScored 1).p, (mkScored 1).r, (mkScored 1).sen_len⟩ :=
  ⟨⟨by decide, skip_still_counted_spec.1 _ _ [] (by decide)⟩,
   skip_still_counted_spec.2.2.1 false [mkScored 1] [] 0 _ rfl⟩

/-- C7: a record with an empty reference renders successfully: the table
has zero color definitions, zero reference data columns, and exactly one
row per hypothesis token. -/
theorem empty_reference_spec :
    ∀ (a1 : AlignmentRecord) (aty : AlignType),
      a1.sen2 = [] → a1.sen1_matched.length = a1.sen1.length →
      ∃ t, print_align_table a1 none aty = some t
        ∧ t.colorDefs = [] ∧ t.numDataCols = 0
        ∧ t.rows.length = a1.sen1.length := by
  intro a1 aty h2 hm
  have hrows : ∀ i ∈ List.range (max_len a1 none),
      ∃ row, rowOf (if (none : Option AlignmentRecord).isSome then FILL_L else FILL)
        a1 none i = some row := by
    intro i hi
    rw [List.mem_range] at hi
    have hi1 : i < a1.sen1.length := by simpa [max_len] using hi
    have him : i < a1.sen1_matched.length := by rw [hm]; exact hi1
    refine ⟨⟨some ⟨a1.sen1_matched[i], escape (a1.sen1.getD i "")⟩, [], none⟩, ?_⟩
    unfold rowOf leftCellOf labelCellOf
    rw [List.getElem?_eq_getElem him, if_pos hi1]
    have hcells : mapMOpt
        (cellOf (if (none : Option AlignmentRecord).isSome then FILL_L else FILL)
          a1 none i)
        (List.range a1.sen2.length) = some [] := by
      rw [h2]
      rfl
    rw [hcells]
    rfl
  obtain ⟨rows, hrows2⟩ := mapMOpt_isSome _ _
    (fun i hi => (hrows i hi).imp (fun _ h => h))
  refine ⟨{ colorDefs := gradientColors a1.sen2.length
            numDataCols := a1.sen2.length
            legend := (none : Option AlignmentRecord).isSome
            header := headerCells a1
            rows := rows
            stats := statsBlock a1 none aty }, ?_, ?_, ?_, ?_⟩
  · unfold print_align_table bodyRows
    rw [hrows2]
  · show gradientColors a1.sen2.length = []
    rw [h2]
    rfl
  · show a1.sen2.length = 0
    rw [h2]
    rfl
  · show rows.length = a1.sen1.length
    have := mapMOpt_length _ _ _ hrows2
    simpa [max_len] using this

/-- Witness for C7 at the concrete record `W3` (two hypothesis tokens,
empty reference). -/
theorem empty_reference_spec_witness :
    (W3.sen2 = [] ∧ W3.sen1_matched.length = W3.sen1.length)
    ∧ ∃ t, print_align_table W3 none AlignType.meteor = some t
        ∧ t.colorDefs = [] ∧ t.numDataCols = 0
        ∧ t.rows.length = W3.sen1.length :=
  ⟨⟨rfl, rfl⟩, empty_reference_spec W3 AlignType.meteor rfl rfl⟩

/-- C8: the length pre-filter for binning is inclusive on both bounds —
a two-ended range `[lo, hi]` keeps a sample exactly when
`lo ≤ sen_len ≤ hi` (so `[11,25]` excludes `sen_len = 10` and includes
`sen_len = 25`), and the open-ended bucket keeps a sample exactly when
`sen_len` is at least the single lower bound (`51+`). -/
theorem length_prefilter_spec :
    (∀ (lo hi : ℕ) (scores : List ScoreSample) (x : ScoreSample),
      x ∈ filter_len_range lo hi scores
        ↔ x ∈ scores ∧ lo ≤ x.sen_len ∧ x.sen_len ≤ hi)
    ∧ (∀ (lo : ℕ) (scores : List ScoreSample) (x : ScoreSample),
      x ∈ filter_len_open lo scores ↔ x ∈ scores ∧ lo ≤ x.sen_len)
    ∧ filter_len_range 11 25 [mkSample 10, mkSample 25] = [mkSample 25]
    ∧ filter_len_open 51 [mkSample 50, mkSample 51] = [mkSample 51] := by
  refine ⟨?_, ?_, by decide, by decide⟩
  · intro lo hi scores x
    simp [filter_len_range, List.mem_filter, and_assoc]
  · intro lo scores x
    simp [filter_len_open, List.mem_filter]

/-- C9: the score-distribution binner yields exactly 10 integer counts
over fixed-width 0.1 buckets — for `b < 9` a value in
`[b/10, (b+1)/10)` lands in bucket `b`, and a value in `[0.9, 1.0]`
(including exactly 1.0) lands in the last bucket — and on input
`[0.05, 0.15, 0.95, 1.0]` it yields `[1,1,0,0,0,0,0,0,0,2]`. -/
theorem score_dist_spec :
    (∀ values : List ℚ, (get_score_dist values).length = 10)
    ∧ (∀ (v : ℚ) (b : ℕ), b < 9 → (b : ℚ)/10 ≤ v → v < ((b : ℚ) + 1)/10 →
        bucketOf v = b)
    ∧ (∀ v : ℚ, 9/10 ≤ v → v ≤ 1 → bucketOf v = 9)
    ∧ get_score_dist [1/20, 3/20, 19/20, 1] = [1, 1, 0, 0, 0, 0, 0, 0, 0, 2] := by
  refine ⟨?_, bucketOf_lt, bucketOf_last, ?_⟩
  · intro values
    unfold get_score_dist
    simp
  · have e1 : bucketOf (1/20 : ℚ) = 0 := bucketOf_lt _ 0 (by norm_num)
      (by norm_num) (by norm_num)
    have e2 : bucketOf (3/20 : ℚ) = 1 := bucketOf_lt _ 1 (by norm_num)
      (by norm_num) (by norm_num)
    have e3 : bucketOf (19/20 : ℚ) = 9 := bucketOf_last _ (by norm_num) (by norm_num)
    have e4 : bucketOf (1 : ℚ) = 9 := bucketOf_last _ (by norm_num) (by norm_num)
    have er : List.range 10 = [0, 1, 2, 3, 4, 5, 6, 7, 8, 9] := by decide
    unfold get_score_dist
    rw [er]
    simp only [List.map_cons, List.map_nil, List.countP_cons, List.countP_nil,
      e1, e2, e3, e4]
    norm_num

/-- Witness for C9: 0.25 lands in bucket 2 and 1.0 in bucket 9. -/
theorem score_dist_spec_witness :
    bucketOf (1/4 : ℚ) = 2 ∧ bucketOf (1 : ℚ) = 9 :=
  ⟨score_dist_spec.2.1 (1/4) 2 (by norm_num) (by norm_num) (by norm_num),
   score_dist_spec.2.2.1 1 (by norm_num) (by norm_num)⟩

/-- C10: a successful render requires `a1.matrix[i][j]` to be defined for
every hypothesis index `i < len(a1.sen1)` and reference index
`j < len(a1.sen2)` (and likewise `a2.matrix` over `a2`'s hypothesis
indices and the same reference indices); an absent entry is not treated
as "no match" — it makes the render fail. -/
theorem matrix_totality_spec :
    (∀ (a1 : AlignmentRecord) (a2 : Option AlignmentRecord) (aty : AlignType)
        (t : AlignTable),
      print_align_table a1 a2 aty = some t →
        (∀ i j : ℕ, i < a1.sen1.length → j < a1.sen2.length →
          (matrixLookup a1.matrix i j).isSome)
        ∧ (∀ b, a2 = some b → ∀ i j : ℕ, i < b.sen1.length → j < a1.sen2.length →
          (matrixLookup b.matrix i j).isSome))
    ∧ (∀ (a1 : AlignmentRecord) (a2 : Option AlignmentRecord) (aty : AlignType),
      (∃ i j : ℕ, i < a1.sen1.length ∧ j < a1.sen2.length
        ∧ matrixLookup a1.matrix i j = none) →
      print_align_table a1 a2 aty = none) := by
  constructor
  · intro a1 a2 aty t h
    obtain ⟨hbody, -, -, -⟩ := print_align_table_eq_some h
    unfold bodyRows at hbody
    exact bodyRows_matrix_some hbody
  · intro a1 a2 aty h
    obtain ⟨i, j, hi, hj, hnone⟩ := h
    cases hr : print_align_table a1 a2 aty with
    | none => rfl
    | some t =>
      obtain ⟨hbody, -, -, -⟩ := print_align_table_eq_some hr
      unfold bodyRows at hbody
      have := (bodyRows_matrix_some hbody).1 i j hi hj
      rw [hnone] at this
      simp at this

/-- Witness for C10: the record `W4`, whose matrix is missing the row for
its only hypothesis token, fails to render. -/
theorem matrix_totality_spec_witness :
    print_align_table W4 none AlignType.meteor = none :=
  matrix_totality_spec.2 W4 none AlignType.meteor
    ⟨0, 0, by decide, by decide, rfl⟩

end MeteorXray
